import Mathlib

/-!
Shallow embedding of a small arithmetic-expression calculator: an AST of
integer expressions (constants, binary and unary operations, variable
references, assignment) evaluated against a single mutable environment
mapping variable names to integer constants.  Evaluation is modelled by
explicit state passing of the environment; exceptions are modelled by
`Except`.
-/

/-- Environment: the mapping from variable name to last-assigned integer
value (the global ENV dictionary). -/
abbrev Env := String → Option Int

/-- Empty environment: no variable has been assigned. -/
def Env.empty : Env := fun _ => none

/-- Store a value under a name, overwriting unconditionally
(a dictionary write). -/
def Env.set (env : Env) (name : String) (value : Int) : Env :=
  fun k => if k = name then some value else env k

/-- Runtime evaluation errors: the UndefinedVariable exception defined by
the calculator, and the ZeroDivisionError raised by floor division on a
zero divisor. -/
inductive EvalError where
  | UndefinedVariable (name : String)
  | ZeroDivisionError
  deriving DecidableEq, Repr

/-- The closed hierarchy of expression nodes.  An Assign node stores the
name of its left Var operand (construction guarantees the left operand is
a Var; see mkAssign). -/
inductive Expr where
  | IntConst (value : Int)
  | Plus (left right : Expr)
  | Minus (left right : Expr)
  | Times (left right : Expr)
  | Div (left right : Expr)
  | Abs (value : Expr)
  | Neg (value : Expr)
  | Var (name : String)
  | Assign (name : String) (right : Expr)
  deriving DecidableEq, Repr

/-- Numeric transform of Plus: integer sum. -/
def Plus.apply (left right : Int) : Except EvalError Int := .ok (left + right)

/-- Numeric transform of Minus: integer difference. -/
def Minus.apply (left right : Int) : Except EvalError Int := .ok (left - right)

/-- Numeric transform of Times: integer product. -/
def Times.apply (left right : Int) : Except EvalError Int := .ok (left * right)

/-- Numeric transform of Div: floor division, raising ZeroDivisionError on
a zero divisor (Python's // operator). -/
def Div.apply (left right : Int) : Except EvalError Int :=
  if right = 0 then .error .ZeroDivisionError else .ok (Int.fdiv left right)

/-- Numeric transform of Abs: mathematical absolute value. -/
def Abs.apply (value : Int) : Except EvalError Int := .ok |value|

/-- Numeric transform of Neg: arithmetic negation. -/
def Neg.apply (value : Int) : Except EvalError Int := .ok (-value)

/-- Shared shape of BinOp.eval: the left result first, then the right
child evaluated in the environment left behind by the left child, then
the operator's transform; an exception short-circuits. -/
def evalBinShape (applyFn : Int → Int → Except EvalError Int)
    (lres : Except EvalError Int × Env)
    (evalRight : Env → Except EvalError Int × Env) :
    Except EvalError Int × Env :=
  match lres with
  | (.error e, env1) => (.error e, env1)
  | (.ok leftVal, env1) =>
    match evalRight env1 with
    | (.error e, env2) => (.error e, env2)
    | (.ok rightVal, env2) => (applyFn leftVal rightVal, env2)

/-- Shared shape of UnOp.eval: evaluate the child, then apply the
transform; an exception short-circuits. -/
def evalUnShape (applyFn : Int → Except EvalError Int)
    (vres : Except EvalError Int × Env) : Except EvalError Int × Env :=
  match vres with
  | (.error e, env1) => (.error e, env1)
  | (.ok v, env1) => (applyFn v, env1)

/-- Evaluation: returns the integer value of the resulting IntConst (or an
error) together with the environment after all side effects.  Mirrors the
eval methods: IntConst returns itself; BinOp evaluates left then right
then applies; UnOp evaluates the child then applies; Var looks its name up
in the environment and raises UndefinedVariable when absent; Assign
evaluates its right side, stores the result under its variable's name, and
returns it. -/
def Expr.eval : Expr → Env → Except EvalError Int × Env
  | .IntConst value, env => (.ok value, env)
  | .Plus l r, env => evalBinShape Plus.apply (Expr.eval l env) (fun e1 => Expr.eval r e1)
  | .Minus l r, env => evalBinShape Minus.apply (Expr.eval l env) (fun e1 => Expr.eval r e1)
  | .Times l r, env => evalBinShape Times.apply (Expr.eval l env) (fun e1 => Expr.eval r e1)
  | .Div l r, env => evalBinShape Div.apply (Expr.eval l env) (fun e1 => Expr.eval r e1)
  | .Abs v, env => evalUnShape Abs.apply (Expr.eval v env)
  | .Neg v, env => evalUnShape Neg.apply (Expr.eval v env)
  | .Var name, env =>
    match env name with
    | some v => (.ok v, env)
    | none => (.error (.UndefinedVariable name), env)
  | .Assign name r, env =>
    match Expr.eval r env with
    | (.error e, env1) => (.error e, env1)
    | (.ok v, env1) => (.ok v, Env.set env1 name v)

/-- Failure of the assert statement guarding Assign's constructor. -/
inductive AssertionError where
  | canOnlyAssignToVariables
  deriving DecidableEq, Repr

/-- Construction of an Assign node: the assert in the constructor rejects
every left operand that is not a Var, so a malformed tree is never built. -/
def mkAssign (left right : Expr) : Except AssertionError Expr :=
  match left with
  | .Var name => .ok (.Assign name right)
  | _ => .error .canOnlyAssignToVariables

/-- Rendering in algebraic notation: fully parenthesized infix for binary
operations, parenthesized prefix for unary operations, the bare numeral
for constants, the bare name for variables, "(left = right)" for
assignments. -/
def Expr.toText : Expr → String
  | .IntConst value => toString value
  | .Plus l r => "(" ++ l.toText ++ " + " ++ r.toText ++ ")"
  | .Minus l r => "(" ++ l.toText ++ " - " ++ r.toText ++ ")"
  | .Times l r => "(" ++ l.toText ++ " * " ++ r.toText ++ ")"
  | .Div l r => "(" ++ l.toText ++ " / " ++ r.toText ++ ")"
  | .Abs v => "(@ " ++ v.toText ++ ")"
  | .Neg v => "(~ " ++ v.toText ++ ")"
  | .Var name => name
  | .Assign name r => "(" ++ name ++ " = " ++ r.toText ++ ")"

/-- Rendering as a constructor-like debug form, the class name of the
variant applied to the children's own debug forms. -/
def Expr.toDebugForm : Expr → String
  | .IntConst value => "IntConst(" ++ toString value ++ ")"
  | .Plus l r => "Plus(" ++ l.toDebugForm ++ ", " ++ r.toDebugForm ++ ")"
  | .Minus l r => "Minus(" ++ l.toDebugForm ++ ", " ++ r.toDebugForm ++ ")"
  | .Times l r => "Times(" ++ l.toDebugForm ++ ", " ++ r.toDebugForm ++ ")"
  | .Div l r => "Div(" ++ l.toDebugForm ++ ", " ++ r.toDebugForm ++ ")"
  | .Abs v => "Abs(" ++ v.toDebugForm ++ ")"
  | .Neg v => "Neg(" ++ v.toDebugForm ++ ")"
  | .Var name => "Var(" ++ name ++ ")"
  | .Assign name r => "Assign(Var(" ++ name ++ "), " ++ r.toDebugForm ++ ")"

/-- The tag with which a node's debug form begins: the class name of the
variant. -/
def Expr.debugTag : Expr → String
  | .IntConst _ => "IntConst"
  | .Plus _ _ => "Plus"
  | .Minus _ _ => "Minus"
  | .Times _ _ => "Times"
  | .Div _ _ => "Div"
  | .Abs _ => "Abs"
  | .Neg _ => "Neg"
  | .Var _ => "Var"
  | .Assign _ _ => "Assign"

/-- Index of a node's variant, used to state that distinct variants carry
distinct debug tags. -/
def Expr.variantIdx : Expr → Nat
  | .IntConst _ => 0
  | .Plus _ _ => 1
  | .Minus _ _ => 2
  | .Times _ _ => 3
  | .Div _ _ => 4
  | .Abs _ => 5
  | .Neg _ => 6
  | .Var _ => 7
  | .Assign _ _ => 8

/-- Whether the expression contains an Assign node whose target is the
given name. -/
def Expr.assignsTo : Expr → String → Bool
  | .IntConst _, _ => false
  | .Plus l r, n => l.assignsTo n || r.assignsTo n
  | .Minus l r, n => l.assignsTo n || r.assignsTo n
  | .Times l r, n => l.assignsTo n || r.assignsTo n
  | .Div l r, n => l.assignsTo n || r.assignsTo n
  | .Abs v, n => v.assignsTo n
  | .Neg v, n => v.assignsTo n
  | .Var _, _ => false
  | .Assign m r, n => m == n || r.assignsTo n

/-- Whether the expression contains any Assign node at all. -/
def Expr.hasAssign : Expr → Bool
  | .IntConst _ => false
  | .Plus l r => l.hasAssign || r.hasAssign
  | .Minus l r => l.hasAssign || r.hasAssign
  | .Times l r => l.hasAssign || r.hasAssign
  | .Div l r => l.hasAssign || r.hasAssign
  | .Abs v => v.hasAssign
  | .Neg v => v.hasAssign
  | .Var _ => false
  | .Assign _ _ => true

example : (Expr.Plus (.IntConst 5) (.IntConst 4)).eval Env.empty = (.ok 9, Env.empty) := rfl

example : (Expr.Div (.IntConst (-7)) (.IntConst 2)).eval Env.empty = (.ok (-4), Env.empty) := rfl

example : (Expr.Div (.IntConst 3) (.IntConst 0)).eval Env.empty =
    (.error .ZeroDivisionError, Env.empty) := rfl

example : (Expr.Assign "x" (Expr.IntConst 7)).eval Env.empty =
    (.ok 7, Env.set Env.empty "x" 7) := rfl

example : (Expr.Var "x").eval (Env.set Env.empty "x" 7) = (.ok 7, Env.set Env.empty "x" 7) := rfl

example : (Expr.Plus (.IntConst 5) (.IntConst 4)).toText = "(5 + 4)" := rfl

example : (Expr.Neg (.IntConst 5)).toText = "(~ 5)" := rfl

example : (Expr.Plus (.IntConst 5) (.IntConst 4)).toDebugForm = "Plus(IntConst(5), IntConst(4))" := rfl

theorem fdiv_neg_neg : ∀ (a b : Int), Int.fdiv (-a) (-b) = Int.fdiv a b
  | .ofNat 0, .ofNat 0 => rfl
  | .ofNat 0, .ofNat (_+1) => rfl
  | .ofNat 0, .negSucc _ => rfl
  | .ofNat (m+1), .ofNat 0 => by
    have h1 : Int.fdiv (-Int.ofNat (m+1)) (-Int.ofNat 0) = 0 := rfl
    have h2 : Int.fdiv (Int.ofNat (m+1)) (Int.ofNat 0) = Int.ofNat ((m+1)/0) := rfl
    rw [h1, h2, Nat.div_zero]
    rfl
  | .ofNat (_+1), .ofNat (_+1) => rfl
  | .ofNat (_+1), .negSucc _ => rfl
  | .negSucc m, .ofNat 0 => by
    have h1 : Int.fdiv (-Int.negSucc m) (-Int.ofNat 0) = Int.ofNat ((m+1)/0) := rfl
    have h2 : Int.fdiv (Int.negSucc m) (Int.ofNat 0) = 0 := rfl
    rw [h1, h2, Nat.div_zero]
    rfl
  | .negSucc _, .ofNat (_+1) => rfl
  | .negSucc _, .negSucc _ => rfl

theorem fdiv_eq_floor_pos (a : Int) (n : ℕ) (hn : n ≠ 0) :
    Int.fdiv a (n : Int) = ⌊(a : ℚ) / ((n : ℕ) : ℚ)⌋ := by
  rw [Int.fdiv_eq_ediv _ (by positivity), Rat.floor_intCast_div_natCast]

theorem fdiv_eq_floor (a b : Int) (hb : b ≠ 0) :
    Int.fdiv a b = ⌊(a : ℚ) / (b : ℚ)⌋ := by
  rcases lt_or_gt_of_ne hb with hneg | hpos
  · rw [← fdiv_neg_neg a b]
    have h2 : (((-b).toNat : ℤ)) = -b := Int.toNat_of_nonneg (by omega)
    have h3 := fdiv_eq_floor_pos (-a) (-b).toNat (by omega)
    rw [h2] at h3
    rw [h3]
    congr 1
    have hq : (((-b).toNat : ℕ) : ℚ) = -(b : ℚ) := by
      exact_mod_cast congrArg (fun z : ℤ => (z : ℚ)) h2
    rw [hq, Int.cast_neg, neg_div_neg_eq]
  · have h2 : ((b.toNat : ℤ)) = b := Int.toNat_of_nonneg (by omega)
    have h3 := fdiv_eq_floor_pos a b.toNat (by omega)
    rw [h2] at h3
    rw [h3]
    congr 1
    have hq : ((b.toNat : ℕ) : ℚ) = (b : ℚ) := by
      exact_mod_cast congrArg (fun z : ℤ => (z : ℚ)) h2
    rw [hq]

/-- Evaluating an expression containing no Assign node whose target is the
given name leaves that name's binding untouched. -/
theorem eval_preserves_of_not_assignsTo (e : Expr) (n : String) :
    ∀ env : Env, e.assignsTo n = false → ((e.eval env).2) n = env n := by
  induction e with
  | IntConst v => intro env h; rfl
  | Plus l r ihl ihr =>
    intro env h
    simp [Expr.assignsTo] at h
    rcases hl : l.eval env with ⟨res1, env1⟩
    have el : env1 n = env n := by have := ihl env h.1; rw [hl] at this; exact this
    cases res1 with
    | error err => simp [Expr.eval, evalBinShape, hl, el]
    | ok v1 =>
      rcases hr : r.eval env1 with ⟨res2, env2⟩
      have er : env2 n = env1 n := by have := ihr env1 h.2; rw [hr] at this; exact this
      cases res2 with
      | error err => simp [Expr.eval, evalBinShape, hl, hr, er, el]
      | ok v2 => simp [Expr.eval, evalBinShape, hl, hr, er, el]
  | Minus l r ihl ihr =>
    intro env h
    simp [Expr.assignsTo] at h
    rcases hl : l.eval env with ⟨res1, env1⟩
    have el : env1 n = env n := by have := ihl env h.1; rw [hl] at this; exact this
    cases res1 with
    | error err => simp [Expr.eval, evalBinShape, hl, el]
    | ok v1 =>
      rcases hr : r.eval env1 with ⟨res2, env2⟩
      have er : env2 n = env1 n := by have := ihr env1 h.2; rw [hr] at this; exact this
      cases res2 with
      | error err => simp [Expr.eval, evalBinShape, hl, hr, er, el]
      | ok v2 => simp [Expr.eval, evalBinShape, hl, hr, er, el]
  | Times l r ihl ihr =>
    intro env h
    simp [Expr.assignsTo] at h
    rcases hl : l.eval env with ⟨res1, env1⟩
    have el : env1 n = env n := by have := ihl env h.1; rw [hl] at this; exact this
    cases res1 with
    | error err => simp [Expr.eval, evalBinShape, hl, el]
    | ok v1 =>
      rcases hr : r.eval env1 with ⟨res2, env2⟩
      have er : env2 n = env1 n := by have := ihr env1 h.2; rw [hr] at this; exact this
      cases res2 with
      | error err => simp [Expr.eval, evalBinShape, hl, hr, er, el]
      | ok v2 => simp [Expr.eval, evalBinShape, hl, hr, er, el]
  | Div l r ihl ihr =>
    intro env h
    simp [Expr.assignsTo] at h
    rcases hl : l.eval env with ⟨res1, env1⟩
    have el : env1 n = env n := by have := ihl env h.1; rw [hl] at this; exact this
    cases res1 with
    | error err => simp [Expr.eval, evalBinShape, hl, el]
    | ok v1 =>
      rcases hr : r.eval env1 with ⟨res2, env2⟩
      have er : env2 n = env1 n := by have := ihr env1 h.2; rw [hr] at this; exact this
      cases res2 with
      | error err => simp [Expr.eval, evalBinShape, hl, hr, er, el]
      | ok v2 => simp [Expr.eval, evalBinShape, hl, hr, er, el]
  | Abs v ih =>
    intro env h
    simp [Expr.assignsTo] at h
    rcases hv : v.eval env with ⟨res1, env1⟩
    have ev : env1 n = env n := by have := ih env h; rw [hv] at this; exact this
    cases res1 with
    | error err => simp [Expr.eval, evalUnShape, hv, ev]
    | ok v1 => simp [Expr.eval, evalUnShape, hv, ev]
  | Neg v ih =>
    intro env h
    simp [Expr.assignsTo] at h
    rcases hv : v.eval env with ⟨res1, env1⟩
    have ev : env1 n = env n := by have := ih env h; rw [hv] at this; exact this
    cases res1 with
    | error err => simp [Expr.eval, evalUnShape, hv, ev]
    | ok v1 => simp [Expr.eval, evalUnShape, hv, ev]
  | Var m =>
    intro env h
    cases henv : env m with
    | none => simp [Expr.eval, henv]
    | some v => simp [Expr.eval, henv]
  | Assign m r ih =>
    intro env h
    simp [Expr.assignsTo] at h
    rcases hr : r.eval env with ⟨res1, env1⟩
    have er : env1 n = env n := by have := ih env h.2; rw [hr] at this; exact this
    cases res1 with
    | error err => simp [Expr.eval, hr, er]
    | ok v1 =>
      simp [Expr.eval, hr, Env.set]
      rw [if_neg (fun hc => h.1 hc.symm), er]

/-- Evaluating an expression containing no Assign node at all returns the
environment it was given. -/
theorem eval_env_eq_of_no_assign (e : Expr) :
    ∀ env : Env, e.hasAssign = false → (e.eval env).2 = env := by
  induction e with
  | IntConst v => intro env h; rfl
  | Plus l r ihl ihr =>
    intro env h
    simp [Expr.hasAssign] at h
    rcases hl : l.eval env with ⟨res1, env1⟩
    have el : env1 = env := by have := ihl env h.1; rw [hl] at this; exact this
    subst el
    cases res1 with
    | error err => simp [Expr.eval, evalBinShape, hl]
    | ok v1 =>
      rcases hr : r.eval env1 with ⟨res2, env2⟩
      have er : env2 = env1 := by have := ihr env1 h.2; rw [hr] at this; exact this
      subst er
      cases res2 with
      | error err => simp [Expr.eval, evalBinShape, hl, hr]
      | ok v2 => simp [Expr.eval, evalBinShape, hl, hr]
  | Minus l r ihl ihr =>
    intro env h
    simp [Expr.hasAssign] at h
    rcases hl : l.eval env with ⟨res1, env1⟩
    have el : env1 = env := by have := ihl env h.1; rw [hl] at this; exact this
    subst el
    cases res1 with
    | error err => simp [Expr.eval, evalBinShape, hl]
    | ok v1 =>
      rcases hr : r.eval env1 with ⟨res2, env2⟩
      have er : env2 = env1 := by have := ihr env1 h.2; rw [hr] at this; exact this
      subst er
      cases res2 with
      | error err => simp [Expr.eval, evalBinShape, hl, hr]
      | ok v2 => simp [Expr.eval, evalBinShape, hl, hr]
  | Times l r ihl ihr =>
    intro env h
    simp [Expr.hasAssign] at h
    rcases hl : l.eval env with ⟨res1, env1⟩
    have el : env1 = env := by have := ihl env h.1; rw [hl] at this; exact this
    subst el
    cases res1 with
    | error err => simp [Expr.eval, evalBinShape, hl]
    | ok v1 =>
      rcases hr : r.eval env1 with ⟨res2, env2⟩
      have er : env2 = env1 := by have := ihr env1 h.2; rw [hr] at this; exact this
      subst er
      cases res2 with
      | error err => simp [Expr.eval, evalBinShape, hl, hr]
      | ok v2 => simp [Expr.eval, evalBinShape, hl, hr]
  | Div l r ihl ihr =>
    intro env h
    simp [Expr.hasAssign] at h
    rcases hl : l.eval env with ⟨res1, env1⟩
    have el : env1 = env := by have := ihl env h.1; rw [hl] at this; exact this
    subst el
    cases res1 with
    | error err => simp [Expr.eval, evalBinShape, hl]
    | ok v1 =>
      rcases hr : r.eval env1 with ⟨res2, env2⟩
      have er : env2 = env1 := by have := ihr env1 h.2; rw [hr] at this; exact this
      subst er
      cases res2 with
      | error err => simp [Expr.eval, evalBinShape, hl, hr]
      | ok v2 => simp [Expr.eval, evalBinShape, hl, hr]
  | Abs v ih =>
    intro env h
    simp [Expr.hasAssign] at h
    rcases hv : v.eval env with ⟨res1, env1⟩
    have ev : env1 = env := by have := ih env h; rw [hv] at this; exact this
    cases res1 with
    | error err => simp [Expr.eval, evalUnShape, hv, ev]
    | ok v1 => simp [Expr.eval, evalUnShape, hv, ev]
  | Neg v ih =>
    intro env h
    simp [Expr.hasAssign] at h
    rcases hv : v.eval env with ⟨res1, env1⟩
    have ev : env1 = env := by have := ih env h; rw [hv] at this; exact this
    cases res1 with
    | error err => simp [Expr.eval, evalUnShape, hv, ev]
    | ok v1 => simp [Expr.eval, evalUnShape, hv, ev]
  | Var m =>
    intro env h
    cases henv : env m with
    | none => simp [Expr.eval, henv]
    | some v => simp [Expr.eval, henv]
  | Assign m r ih =>
    intro env h
    simp [Expr.hasAssign] at h

/-- C1: for every integer a, evaluating IntDivide(IntConst(a), IntConst(0))
fails with the division-by-zero error, an error kind distinguishable from
every undefined-variable error. -/
theorem div_by_zero_fails (a : Int) (env : Env) :
    (Expr.Div (Expr.IntConst a) (Expr.IntConst 0)).eval env
      = (Except.error EvalError.ZeroDivisionError, env) ∧
    (∀ n : String, EvalError.ZeroDivisionError ≠ EvalError.UndefinedVariable n) := by
  constructor
  · simp [Expr.eval, evalBinShape, Div.apply]
  · intro n h
    exact EvalError.noConfusion h

/-- C2: for all integers a and b with b nonzero, evaluating
IntDivide(IntConst(a), IntConst(b)) returns the floor of the rational a/b,
i.e. floor division rounding toward negative infinity. -/
theorem intDivide_floor (a b : Int) (env : Env) (hb : b ≠ 0) :
    (Expr.Div (Expr.IntConst a) (Expr.IntConst b)).eval env
      = (Except.ok ⌊(a : ℚ) / (b : ℚ)⌋, env) := by
  simp [Expr.eval, evalBinShape, Div.apply, hb, fdiv_eq_floor a b hb]

theorem intDivide_floor_witness :
    ((2 : Int) ≠ 0) ∧
    (Expr.Div (Expr.IntConst (-7)) (Expr.IntConst 2)).eval Env.empty
      = (Except.ok (-4), Env.empty) := by
  constructor
  · decide
  · rw [intDivide_floor (-7) 2 Env.empty (by decide)]
    norm_num

/-- C3: constructing an Assignment whose left operand is not a VariableRef
fails at construction with the assertion guarding Assign's constructor, so
a malformed tree is never built; a VariableRef left operand succeeds. -/
theorem assign_construction_guard :
    (∀ left right : Expr, (∀ m : String, left ≠ Expr.Var m) →
      mkAssign left right = Except.error AssertionError.canOnlyAssignToVariables) ∧
    (∀ (m : String) (right : Expr),
      mkAssign (Expr.Var m) right = Except.ok (Expr.Assign m right)) := by
  constructor
  · intro left right h
    cases left with
    | Var m => exact absurd rfl (h m)
    | IntConst v => rfl
    | Plus l r => rfl
    | Minus l r => rfl
    | Times l r => rfl
    | Div l r => rfl
    | Abs v => rfl
    | Neg v => rfl
    | Assign m r => rfl
  · intro m right
    rfl

theorem assign_construction_guard_witness :
    (∀ m : String, Expr.IntConst 1 ≠ Expr.Var m) ∧
    mkAssign (Expr.IntConst 1) (Expr.IntConst 2)
      = Except.error AssertionError.canOnlyAssignToVariables ∧
    mkAssign (Expr.Var "x") (Expr.IntConst 2)
      = Except.ok (Expr.Assign "x" (Expr.IntConst 2)) := by
  refine ⟨fun m h => Expr.noConfusion h, ?_, ?_⟩
  · exact assign_construction_guard.1 (Expr.IntConst 1) (Expr.IntConst 2)
      (fun m h => Expr.noConfusion h)
  · exact assign_construction_guard.2 "x" (Expr.IntConst 2)

/-- C4: evaluating Assign(VariableRef(n), e) when e evaluates to v returns
v, stores v under n, and every subsequent lookup of n — directly, or after
evaluating any further expression containing no assignment to n — returns
v. -/
theorem assign_stores_and_returns (n : String) (r : Expr) (env env1 : Env) (v : Int)
    (h : r.eval env = (Except.ok v, env1)) :
    (Expr.Assign n r).eval env = (Except.ok v, Env.set env1 n v) ∧
    (Env.set env1 n v) n = some v ∧
    (Expr.Var n).eval (Env.set env1 n v) = (Except.ok v, Env.set env1 n v) ∧
    (∀ e2 : Expr, e2.assignsTo n = false →
      (Expr.Var n).eval ((e2.eval (Env.set env1 n v)).2)
        = (Except.ok v, (e2.eval (Env.set env1 n v)).2)) := by
  have hset : (Env.set env1 n v) n = some v := by simp [Env.set]
  refine ⟨?_, hset, ?_, ?_⟩
  · simp [Expr.eval, h]
  · simp [Expr.eval, hset]
  · intro e2 h2
    have hp := eval_preserves_of_not_assignsTo e2 n (Env.set env1 n v) h2
    rw [hset] at hp
    simp [Expr.eval, hp]

theorem assign_stores_and_returns_witness :
    (Expr.IntConst 7).eval Env.empty = (Except.ok 7, Env.empty) ∧
    (Expr.Assign "x" (Expr.IntConst 7)).eval Env.empty
      = (Except.ok 7, Env.set Env.empty "x" 7) ∧
    (Expr.Var "x").eval (Env.set Env.empty "x" 7)
      = (Except.ok 7, Env.set Env.empty "x" 7) := by
  have h := assign_stores_and_returns "x" (Expr.IntConst 7) Env.empty Env.empty 7 rfl
  exact ⟨rfl, h.1, h.2.2.1⟩

/-- C5: evaluating VariableRef(n) fails with UndefinedVariable(n) exactly
when n is absent from the environment, and returns the stored value when
present; the error is returned to the caller as is. -/
theorem var_lookup_semantics (n : String) (env : Env) :
    (env n = none →
      (Expr.Var n).eval env = (Except.error (EvalError.UndefinedVariable n), env)) ∧
    (∀ v : Int, env n = some v →
      (Expr.Var n).eval env = (Except.ok v, env)) := by
  constructor
  · intro h; simp [Expr.eval, h]
  · intro v h; simp [Expr.eval, h]

theorem var_lookup_semantics_witness :
    Env.empty "x" = none ∧
    (Expr.Var "x").eval Env.empty
      = (Except.error (EvalError.UndefinedVariable "x"), Env.empty) ∧
    (Env.set Env.empty "x" 5) "x" = some 5 ∧
    (Expr.Var "x").eval (Env.set Env.empty "x" 5)
      = (Except.ok 5, Env.set Env.empty "x" 5) := by
  refine ⟨rfl, (var_lookup_semantics "x" Env.empty).1 rfl, rfl,
    (var_lookup_semantics "x" (Env.set Env.empty "x" 5)).2 5 rfl⟩

/-- C6: addition, subtraction and multiplication of integer constants
return exact integer sum, difference and product; Absolute returns the
absolute value and Negate the arithmetic negation. -/
theorem arith_ops_correct (a b : Int) (env : Env) :
    (Expr.Plus (Expr.IntConst a) (Expr.IntConst b)).eval env = (Except.ok (a + b), env) ∧
    (Expr.Minus (Expr.IntConst a) (Expr.IntConst b)).eval env = (Except.ok (a - b), env) ∧
    (Expr.Times (Expr.IntConst a) (Expr.IntConst b)).eval env = (Except.ok (a * b), env) ∧
    (Expr.Abs (Expr.IntConst a)).eval env = (Except.ok |a|, env) ∧
    (Expr.Neg (Expr.IntConst a)).eval env = (Except.ok (-a), env) :=
  ⟨rfl, rfl, rfl, rfl, rfl⟩

/-- C7: the algebraic rendering is fully parenthesized infix for binary
operations, parenthesized symbol-first form for unary operations, the bare
numeral for constants, the bare name for variables and "(left = right)"
for assignments; in particular Plus(IntConst(5), IntConst(4)) renders as
"(5 + 4)" and Negate(IntConst(5)) as "(~ 5)". -/
theorem toText_spec :
    (∀ v : Int, (Expr.IntConst v).toText = toString v) ∧
    (∀ l r : Expr, (Expr.Plus l r).toText = "(" ++ l.toText ++ " + " ++ r.toText ++ ")") ∧
    (∀ l r : Expr, (Expr.Minus l r).toText = "(" ++ l.toText ++ " - " ++ r.toText ++ ")") ∧
    (∀ l r : Expr, (Expr.Times l r).toText = "(" ++ l.toText ++ " * " ++ r.toText ++ ")") ∧
    (∀ l r : Expr, (Expr.Div l r).toText = "(" ++ l.toText ++ " / " ++ r.toText ++ ")") ∧
    (∀ v : Expr, (Expr.Abs v).toText = "(@ " ++ v.toText ++ ")") ∧
    (∀ v : Expr, (Expr.Neg v).toText = "(~ " ++ v.toText ++ ")") ∧
    (∀ n : String, (Expr.Var n).toText = n) ∧
    (∀ (n : String) (r : Expr), (Expr.Assign n r).toText = "(" ++ n ++ " = " ++ r.toText ++ ")") ∧
    (Expr.Plus (Expr.IntConst 5) (Expr.IntConst 4)).toText = "(5 + 4)" ∧
    (Expr.Neg (Expr.IntConst 5)).toText = "(~ 5)" :=
  ⟨fun _ => rfl, fun _ _ => rfl, fun _ _ => rfl, fun _ _ => rfl, fun _ _ => rfl,
   fun _ => rfl, fun _ => rfl, fun _ => rfl, fun _ _ => rfl, rfl, rfl⟩

/-- C8: the debug form names the variant's tag and nests the children's
own debug forms recursively, distinct variants carry distinct tags, and
Plus(IntConst(5), IntConst(4)) renders exactly as
"Plus(IntConst(5), IntConst(4))". -/
theorem toDebugForm_spec :
    (∀ e1 e2 : Expr, e1.variantIdx ≠ e2.variantIdx → e1.debugTag ≠ e2.debugTag) ∧
    (∀ v : Int, (Expr.IntConst v).toDebugForm = "IntConst(" ++ toString v ++ ")") ∧
    (∀ l r : Expr,
      (Expr.Plus l r).toDebugForm = "Plus(" ++ l.toDebugForm ++ ", " ++ r.toDebugForm ++ ")") ∧
    (∀ l r : Expr,
      (Expr.Minus l r).toDebugForm = "Minus(" ++ l.toDebugForm ++ ", " ++ r.toDebugForm ++ ")") ∧
    (∀ l r : Expr,
      (Expr.Times l r).toDebugForm = "Times(" ++ l.toDebugForm ++ ", " ++ r.toDebugForm ++ ")") ∧
    (∀ l r : Expr,
      (Expr.Div l r).toDebugForm = "Div(" ++ l.toDebugForm ++ ", " ++ r.toDebugForm ++ ")") ∧
    (∀ v : Expr, (Expr.Abs v).toDebugForm = "Abs(" ++ v.toDebugForm ++ ")") ∧
    (∀ v : Expr, (Expr.Neg v).toDebugForm = "Neg(" ++ v.toDebugForm ++ ")") ∧
    (∀ n : String, (Expr.Var n).toDebugForm = "Var(" ++ n ++ ")") ∧
    (∀ (n : String) (r : Expr),
      (Expr.Assign n r).toDebugForm = "Assign(Var(" ++ n ++ "), " ++ r.toDebugForm ++ ")") ∧
    (Expr.Plus (Expr.IntConst 5) (Expr.IntConst 4)).toDebugForm
      = "Plus(IntConst(5), IntConst(4))" := by
  refine ⟨?_, fun _ => rfl, fun _ _ => rfl, fun _ _ => rfl, fun _ _ => rfl, fun _ _ => rfl,
    fun _ => rfl, fun _ => rfl, fun _ => rfl, fun _ _ => rfl, rfl⟩
  intro e1 e2 h
  cases e1 <;> cases e2 <;> simp [Expr.variantIdx, Expr.debugTag] at h ⊢

theorem toDebugForm_spec_witness :
    (Expr.IntConst 0).variantIdx ≠ (Expr.Var "x").variantIdx ∧
    (Expr.IntConst 0).debugTag ≠ (Expr.Var "x").debugTag :=
  ⟨by decide, toDebugForm_spec.1 (Expr.IntConst 0) (Expr.Var "x") (by decide)⟩

/-- C9 (amended): when the right-hand side of an assignment fails, no
write to the assignment's target happens — the resulting environment is
exactly the environment produced by the failed right-hand-side evaluation;
in particular, when the right-hand side contains no assignment of its own,
the environment is completely unchanged. -/
theorem assign_no_write_on_failure (n : String) (r : Expr) (env env1 : Env)
    (err : EvalError) (h : r.eval env = (Except.error err, env1)) :
    (Expr.Assign n r).eval env = (Except.error err, env1) ∧
    (r.hasAssign = false → env1 = env) := by
  constructor
  · simp [Expr.eval, h]
  · intro hn
    have hp := eval_env_eq_of_no_assign r env hn
    rw [h] at hp
    exact hp

theorem assign_no_write_on_failure_witness :
    (Expr.Var "z").eval Env.empty
      = (Except.error (EvalError.UndefinedVariable "z"), Env.empty) ∧
    (Expr.Assign "x" (Expr.Var "z")).eval Env.empty
      = (Except.error (EvalError.UndefinedVariable "z"), Env.empty) :=
  ⟨rfl,
   (assign_no_write_on_failure "x" (Expr.Var "z") Env.empty Env.empty
      (EvalError.UndefinedVariable "z") rfl).1⟩

/-- C9 counterexample: evaluating Assign("x", Plus(Assign("y", 1),
Var("z"))) in the empty environment fails on the undefined variable "z",
yet the environment after the failure maps "y" to 1 although it was unbound
before — so a failing assignment does not always leave the environment
completely unchanged. -/
theorem assign_env_changed_on_failure_counterexample :
    ((Expr.Assign "x" (Expr.Plus (Expr.Assign "y" (Expr.IntConst 1))
        (Expr.Var "z"))).eval Env.empty).1
      = Except.error (EvalError.UndefinedVariable "z") ∧
    ((Expr.Assign "x" (Expr.Plus (Expr.Assign "y" (Expr.IntConst 1))
        (Expr.Var "z"))).eval Env.empty).2 "y" = some 1 ∧
    Env.empty "y" = none :=
  ⟨rfl, rfl, rfl⟩

/-- C10: a binary operation evaluates its left child first, then its right
child in the environment the left child produced: a failing left child
short-circuits, a successful pair combines in order; so from an empty
environment Add(Assign("x", 1), Var("x")) evaluates to 2 while
Add(Var("x"), Assign("x", 1)) fails with the undefined-variable error. -/
theorem binop_left_to_right :
    (∀ (l r : Expr) (env env1 : Env) (err : EvalError),
      l.eval env = (Except.error err, env1) →
        (Expr.Plus l r).eval env = (Except.error err, env1) ∧
        (Expr.Minus l r).eval env = (Except.error err, env1) ∧
        (Expr.Times l r).eval env = (Except.error err, env1) ∧
        (Expr.Div l r).eval env = (Except.error err, env1)) ∧
    (∀ (l r : Expr) (env env1 env2 : Env) (v1 v2 : Int),
      l.eval env = (Except.ok v1, env1) → r.eval env1 = (Except.ok v2, env2) →
        (Expr.Plus l r).eval env = (Except.ok (v1 + v2), env2) ∧
        (Expr.Minus l r).eval env = (Except.ok (v1 - v2), env2) ∧
        (Expr.Times l r).eval env = (Except.ok (v1 * v2), env2) ∧
        (Expr.Div l r).eval env = (Div.apply v1 v2, env2)) ∧
    (Expr.Plus (Expr.Assign "x" (Expr.IntConst 1)) (Expr.Var "x")).eval Env.empty
      = (Except.ok 2, Env.set Env.empty "x" 1) ∧
    (Expr.Plus (Expr.Var "x") (Expr.Assign "x" (Expr.IntConst 1))).eval Env.empty
      = (Except.error (EvalError.UndefinedVariable "x"), Env.empty) := by
  refine ⟨?_, ?_, rfl, rfl⟩
  · intro l r env env1 err h
    exact ⟨by simp [Expr.eval, evalBinShape, h], by simp [Expr.eval, evalBinShape, h],
      by simp [Expr.eval, evalBinShape, h], by simp [Expr.eval, evalBinShape, h]⟩
  · intro l r env env1 env2 v1 v2 hl hr
    exact ⟨by simp [Expr.eval, evalBinShape, hl, hr, Plus.apply],
      by simp [Expr.eval, evalBinShape, hl, hr, Minus.apply],
      by simp [Expr.eval, evalBinShape, hl, hr, Times.apply],
      by simp [Expr.eval, evalBinShape, hl, hr]⟩

theorem binop_left_to_right_witness :
    (Expr.IntConst 1).eval Env.empty = (Except.ok 1, Env.empty) ∧
    (Expr.IntConst 2).eval Env.empty = (Except.ok 2, Env.empty) ∧
    (Expr.Plus (Expr.IntConst 1) (Expr.IntConst 2)).eval Env.empty
      = (Except.ok 3, Env.empty) := by
  have h := (binop_left_to_right.2.1 (Expr.IntConst 1) (Expr.IntConst 2)
    Env.empty Env.empty Env.empty 1 2 rfl rfl).1
  exact ⟨rfl, rfl, by rw [h]; norm_num⟩
